import Mathlib

/-
Verification of the rqx request/response orchestration library.

Shallow embedding conventions:
  * Go strings are modelled as lists of characters (`Str`).
  * Go `error` values are modelled by the inductive `Err`; a nullable
    `error` is `Option Err` (`none` = nil).
  * Go maps `map[string][]string` used for request headers are modelled as
    functions `Str → List Str` (absent key ↦ `[]`, matching Go's nil slice).
  * Stateful caller-supplied callbacks (hooks, classifiers, the transport
    client, the cooldown callback) are modelled as functions threading an
    arbitrary instrumentation state `σ`, so that non-invocation of a
    callback is observable as the state passing through unchanged.
  * `errors.Join(a, b)` is modelled by `joinErr`; Go wraps even a single
    non-nil error in a one-element join node, which is observationally
    (via `Unwrap`/`Is`) the error itself, so we identify the two.
-/

namespace Rqx

/-- Go strings, modelled as lists of characters. -/
abbrev Str := List Char

/-- Drops the leading '/' characters of a string
(the one-sided core of Go's `strings.Trim(s, "/")`). -/
def dropLeadingSlashes : Str → Str
  | [] => []
  | c :: cs => if c = '/' then dropLeadingSlashes cs else c :: cs

/-- Go `strings.TrimRight(s, "/")`. -/
def trimRightSlashes (s : Str) : Str :=
  (dropLeadingSlashes s.reverse).reverse

/-- Go `strings.Trim(s, "/")`: removes leading and trailing '/'. -/
def trimSlashes (s : Str) : Str :=
  trimRightSlashes (dropLeadingSlashes s)

/-- Error values of the embedded program (`Err` plays the role of
non-nil Go `error` values; a nullable error is `Option Err`). -/
inductive Err where
  /-- the sentinel `errRateLimit` (`"rate limit exceeded"`). -/
  | rateLimit : Err
  /-- the error `ErrBodyAlreadyExists` (`"body already exists"`). -/
  | bodyAlreadyExists : Err
  /-- the error `"rate limit handler is nil"` from `Cooldown`. -/
  | rateLimitHandlerNil : Err
  /-- the error `"rate limit handler cannot be set if body is io.Closer"`
  from `newDoParams`. -/
  | rateLimitBodyCloser : Err
  /-- an `UnhandledResponseError` carrying status code, header snapshot and
  the fully buffered body. -/
  | unhandled (status : Nat) (headers : List (Str × List Str)) (body : Str) : Err
  /-- an opaque caller- or collaborator-produced error value. -/
  | tagged (tag : Str) : Err
  /-- an `errors.Join` of two non-nil errors. -/
  | joined (a b : Err) : Err
  deriving DecidableEq, Repr

/-- Go `errors.Join(a, b)` on nullable errors: nil operands are discarded;
`errors.Join(e, nil)` is observationally `e` (see the file header). -/
def joinErr : Option Err → Option Err → Option Err
  | none, none => none
  | some a, none => some a
  | none, some b => some b
  | some a, some b => some (.joined a b)

/-- Go `errors.Join(errs...)` over a list of non-nil errors
(`none` when the list is empty, as `Join` returns nil then). -/
def joinAll (es : List Err) : Option Err :=
  es.foldl (fun acc e => joinErr acc (some e)) none

/-- Go `errors.Is(err, errRateLimit)`: `errors.Is` walks the unwrap chain,
which for our error values means looking through join nodes. -/
def errIsRateLimit : Err → Bool
  | .rateLimit => true
  | .joined a b => errIsRateLimit a || errIsRateLimit b
  | _ => false

/-! URL builder (src/ok.go:276-336; the same `build` also appears at
src/url_builder.go:45-69 in an older revision that lacks the
`strings.TrimRight(base, "/")` normalization; the repository's own test
`Test_urlBuilder` ("Only base URL with slash") requires the normalization,
so the revision with it is embedded). -/

/-- the `urlBuilder` struct: trimmed path segments and pre-encoded query
fragments in append order, plus the length hint fed to `strings.Builder.Grow`
(a capacity hint with no observable effect on the built string). -/
structure UrlBuilder where
  length : Nat
  paths : List Str
  queries : List Str
  deriving DecidableEq, Repr

/-- the zero `urlBuilder`. -/
def emptyUrlBuilder : UrlBuilder := ⟨0, [], []⟩

/-- Go `(*urlBuilder).appendPaths`: each argument is trimmed of leading and
trailing '/' and stored; never fails. -/
def appendPaths (u : UrlBuilder) (ps : List Str) : UrlBuilder :=
  match ps with
  | [] => u
  | p :: rest =>
    let t := trimSlashes p
    appendPaths { u with length := u.length + 1 + t.length, paths := u.paths ++ [t] } rest

/-- Go `(*urlBuilder).appendQuery` after the collaborator encoder
(`querypkg.Values`/`Encode`, an external collaborator) has produced its
outcome: `none` models a nil `data` argument (no-op), `some (.error e)` a
failed encoding (builder unchanged, error returned), `some (.ok q)` a
successful encoding appended to the stored fragments. -/
def appendQuery (u : UrlBuilder) (encoded : Option (Except Err Str)) :
    Except Err UrlBuilder :=
  match encoded with
  | none => .ok u
  | some (.error e) => .error e
  | some (.ok q) =>
    .ok { u with length := u.length + 1 + q.length, queries := u.queries ++ [q] }

/-- the `for` loop of `build` writing `'/' ++ p` for each stored segment. -/
def writePaths : List Str → Str
  | [] => []
  | p :: ps => '/' :: p ++ writePaths ps

/-- the `for` loop of `build` writing `'&' ++ q` for each stored query
fragment after the first. -/
def writeQueries : List Str → Str
  | [] => []
  | q :: qs => '&' :: q ++ writeQueries qs

/-- Go `(*urlBuilder).build` (src/ok.go:309-336): strip trailing '/' from the
base, write each stored segment preceded by '/', then, if any query fragment
is stored, write '?', the first fragment, and each further fragment preceded
by '&'. -/
def build (u : UrlBuilder) (base : Str) : Str :=
  let base := trimRightSlashes base
  base ++ writePaths u.paths ++
    match u.queries with
    | [] => []
    | q :: qs => '?' :: q ++ writeQueries qs

/-- one call against the URL builder: an `appendPaths` call with its
arguments, or an `appendQuery` call with the collaborator encoder's outcome
(`queryOp none` models `appendQuery(nil)`). -/
inductive UrlOp where
  | pathsOp (ps : List Str) : UrlOp
  | queryOp (encoded : Option (Except Err Str)) : UrlOp
  deriving Repr

/-- runs a sequence of URL-builder calls; a failing `appendQuery` leaves the
builder unchanged (the error is returned to the caller, which aborts option
application, but the builder state is as the code leaves it). -/
def runUrlOps (u : UrlBuilder) : List UrlOp → UrlBuilder
  | [] => u
  | .pathsOp ps :: rest => runUrlOps (appendPaths u ps) rest
  | .queryOp enc :: rest =>
    match appendQuery u enc with
    | .ok u' => runUrlOps u' rest
    | .error _ => runUrlOps u rest

/-- the path segments stored by a sequence of calls: every argument of every
`appendPaths` call, trimmed, in append order. -/
def storedPaths : List UrlOp → List Str
  | [] => []
  | .pathsOp ps :: rest => ps.map trimSlashes ++ storedPaths rest
  | .queryOp _ :: rest => storedPaths rest

/-- the query fragments stored by a sequence of calls: every successfully
encoded `appendQuery` argument, in append order. -/
def storedQueries : List UrlOp → List Str
  | [] => []
  | .pathsOp _ :: rest => storedQueries rest
  | .queryOp (some (.ok q)) :: rest => q :: storedQueries rest
  | .queryOp _ :: rest => storedQueries rest

/-- Modelled from the spec: the build algorithm as §4.2 words it — "strip
trailing separators from base; concatenate each stored segment preceded by
one separator, in append order; if no query fragments exist, stop; otherwise
append `?` then the first query fragment then `&`-joined remaining
fragments, in append order". Stated independently of `build` for the
refinement theorem. -/
def urlSpec (base : Str) (segs qs : List Str) : Str :=
  trimRightSlashes base ++ (segs.map (fun p => '/' :: p)).flatten ++
    match qs with
    | [] => []
    | q :: rest => '?' :: (rest.foldl (fun acc f => acc ++ '&' :: f) q)

/-! Header canonicalization. The repository canonicalizes header keys via
Go's `net/textproto.CanonicalMIMEHeaderKey` (src/decoder.go:45-60), an
external standard-library collaborator embedded here from its Go source. -/

/-- Go `net/textproto.validHeaderFieldByte`: the RFC 7230 token characters
(digits, letters, and `! # $ % & ' * + - . ^ _ ` | ~` by code point). -/
def validHeaderFieldChar (c : Char) : Bool :=
  let n := c.toNat
  (48 ≤ n && n ≤ 57) || (65 ≤ n && n ≤ 90) || (97 ≤ n && n ≤ 122) ||
  (n = 33 || n = 35 || n = 36 || n = 37 || n = 38 || n = 39 || n = 42 ||
   n = 43 || n = 45 || n = 46 || n = 94 || n = 95 || n = 96 || n = 124 ||
   n = 126)

/-- uppercases an ASCII lowercase letter (Go `c -= toLower`). -/
def upChar (c : Char) : Char :=
  if 97 ≤ c.toNat && c.toNat ≤ 122 then Char.ofNat (c.toNat - 32) else c

/-- lowercases an ASCII uppercase letter (Go `c += toLower`). -/
def downChar (c : Char) : Char :=
  if 65 ≤ c.toNat && c.toNat ≤ 90 then Char.ofNat (c.toNat + 32) else c

/-- the case-mapping loop of Go `textproto.canonicalMIMEHeaderKey`: the
first character and every character following a '-' is uppercased, every
other letter lowercased (`upper` tracks whether the previous character was
a '-', starting true). -/
def canonLoop (upper : Bool) : Str → Str
  | [] => []
  | c :: cs =>
    let c' := if upper then upChar c else downChar c
    c' :: canonLoop (c' = '-') cs

/-- Go `net/textproto.CanonicalMIMEHeaderKey`: if the key contains a
character that is not a valid header-field byte it is returned unchanged;
otherwise the canonical (dash-segmented title) case mapping is applied. -/
def canonicalMIMEHeaderKey (s : Str) : Str :=
  if s.all validHeaderFieldChar then canonLoop true s else s

/-- request headers, Go `http.Header` (`map[string][]string`) modelled as a
total function with nil-slice (`[]`) default. -/
def Headers := Str → List Str

/-- the empty header map (`make(http.Header)`). -/
def emptyHeaders : Headers := fun _ => []

/-- the header-key constant `HeaderContentType`. Modelled from the spec:
the declaring file const.go is not part of the sources (only its test
`Test_CanonicalHeaderKeys` is), which checks that every constant is its own
MIME canonical form; the standard canonical name is used. -/
def headerContentType : Str := "Content-Type".toList

/-- the header-key constant `HeaderAccept` (see `headerContentType`). -/
def headerAccept : Str := "Accept".toList

/-- the header-key constant `HeaderAuthorization` (see
`headerContentType`). -/
def headerAuthorization : Str := "Authorization".toList

/-- the struct `withHeaderOptions` (src/decoder.go:40-43). -/
structure WithHeaderOptions where
  isKeyCanonicalized : Bool
  doesAddValueToEnd : Bool

/-- the store step of `withHeader` (src/decoder.go:45-60): the key is
canonicalized unless flagged as already canonical; `doesAddValueToEnd`
selects `Header.Add` semantics (append) over `Header.Set` semantics
(replace all stored values with the single new one). -/
def storeHeader (h : Headers) (key value : Str) (options : WithHeaderOptions) :
    Headers :=
  let canonicalKey := if options.isKeyCanonicalized then key
                      else canonicalMIMEHeaderKey key
  fun k =>
    if k = canonicalKey then
      if options.doesAddValueToEnd then h canonicalKey ++ [value] else [value]
    else h k

/-! Requests, responses, bodies and handler chains. -/

/-- a request body source. `isCloser` records whether the underlying
`io.Reader` also implements `io.Closer` (the dynamic type check
`params.body.(io.Closer)` in `newDoParams`); readers produced by
`bytes.NewReader`/`strings.NewReader` are not closers. -/
structure Body where
  isCloser : Bool
  content : Str
  deriving DecidableEq, Repr

/-- an outgoing `http.Request` as far as the engine observes it: method,
materialized URL, and the header multimap copied from the descriptor by
`prepareRequest` (the request starts with empty headers, so the appending
loop yields exactly the descriptor's headers). -/
structure Request where
  method : Str
  url : Str
  headers : Headers
  body : Option Body

/-- an incoming `http.Response` as far as the engine observes it: the status
code, the header multimap, what reading the body stream to completion
yields (`.error` models a failing `Read`), and what `Body.Close()` returns. -/
structure Response where
  statusCode : Nat
  headers : List (Str × List Str)
  bodyRead : Except Err Str
  closeResult : Option Err

/-- a `Decoder` collaborator observed through a response body: given the
outcome of reading the stream, it decodes into the caller's value and
reports `none` on success or the decoding/read error. -/
def Decoder := Except Err Str → Option Err

/-- Go `http.Header.Clone` on the response headers: an entry-by-entry copy. -/
def headerClone : List (Str × List Str) → List (Str × List Str)
  | [] => []
  | (k, vs) :: rest => (k, vs ++ []) :: headerClone rest

/-- Go `newUnhandledResponse` (src/error.go:63-74): `io.ReadAll` the body —
propagating a read error — and otherwise wrap status code, cloned headers
and the buffered body in an `UnhandledResponseError`. -/
def newUnhandledResponse (resp : Response) : Err :=
  match resp.bodyRead with
  | .error e => e
  | .ok content => .unhandled resp.statusCode (headerClone resp.headers) content

/-- the `handler` struct (src/handler.go:54-86), over an instrumentation
state `σ` threaded through every caller-supplied function. -/
structure Handler (σ : Type) where
  beforeResponse : List (σ → Request → σ × Option Err)
  afterResponse : List (σ → Response → σ × Option Err)
  /-- the `okResponseHandler` returns `(any, error)`; the `Bool` records whether
  the `any` result is non-nil. -/
  okResponse : Option (σ → Response → σ × Bool × Option Err)
  errorResponses : List (σ → Response → σ × Option Err)
  rateLimitResponse : Option (σ → Response → σ × Option Err)

/-- the zero `handler`. -/
def emptyHandler {σ : Type} : Handler σ :=
  ⟨[], [], none, [], none⟩

/-- Go `(*handler).applyBefore` (src/handler.go:88-96): run the pre-send hooks
in order, aborting at the first failure. -/
def applyBefore {σ : Type} :
    List (σ → Request → σ × Option Err) → σ → Request → σ × Option Err
  | [], s, _ => (s, none)
  | f :: rest, s, req =>
    match f s req with
    | (s', some e) => (s', some e)
    | (s', none) => applyBefore rest s' req

/-- Go `(*handler).applyAfter` (src/handler.go:98-106): run the post-receive
hooks in order, aborting at the first failure. -/
def applyAfter {σ : Type} :
    List (σ → Response → σ × Option Err) → σ → Response → σ × Option Err
  | [], s, _ => (s, none)
  | f :: rest, s, resp =>
    match f s resp with
    | (s', some e) => (s', some e)
    | (s', none) => applyAfter rest s' resp

/-- Go `(*handler).matchOK` (src/handler.go:108-119): no registered success
classifier never matches; otherwise the classifier matches when it returns
a non-nil result or a non-nil error. -/
def matchOK {σ : Type} (h : Handler σ) (s : σ) (resp : Response) :
    σ × Bool × Option Err :=
  match h.okResponse with
  | none => (s, false, none)
  | some ok =>
    match ok s resp with
    | (s', result, err) =>
      if result || err.isSome then (s', true, err) else (s', false, none)

/-- Go `(*handler).matchError` (src/handler.go:121-130): evaluate the error
classifiers in registration order; the first non-nil error wins. -/
def matchError {σ : Type} :
    List (σ → Response → σ × Option Err) → σ → Response → σ × Option Err
  | [], s, _ => (s, none)
  | f :: rest, s, resp =>
    match f s resp with
    | (s', some e) => (s', some e)
    | (s', none) => matchError rest s' resp

/-- the classifier built by `OKStatuses.To` (src/ok.go:19-35): statuses not
containing the response status yield `(nil, nil)` (no match); otherwise the
decoder runs on the body — a decoding error yields `(nil, err)`, success
yields the caller's non-nil result pointer and no error. The classifier
touches no instrumentation state. -/
def okToF {σ : Type} (statuses : List Nat) (dec : Decoder) :
    σ → Response → σ × Bool × Option Err :=
  fun s resp =>
    if statuses.contains resp.statusCode then
      match dec resp.bodyRead with
      | some e => (s, false, some e)
      | none => (s, true, none)
    else (s, false, none)

/-- the classifier built by `ErrorStatuses.To` (src/error.go:20-39):
statuses not containing the response status yield nil; otherwise the
decoder runs on the body — a decoding error is returned, and on success the
decoded caller-defined error value `errVal` is returned. -/
def errToF {σ : Type} (statuses : List Nat) (dec : Decoder) (errVal : Err) :
    σ → Response → σ × Option Err :=
  fun s resp =>
    if statuses.contains resp.statusCode then
      match dec resp.bodyRead with
      | some e => (s, some e)
      | none => (s, some errVal)
    else (s, none)

/-- the error classifier appended by `RateLimitStatuses.Cooldown`
(src/unnamed/part_004:71-90): statuses containing the response status yield
the `errRateLimit` sentinel, anything else nil. -/
def rateLimitClassifier {σ : Type} (statuses : List Nat) :
    σ → Response → σ × Option Err :=
  fun s resp =>
    (s, if statuses.contains resp.statusCode then some .rateLimit else none)

/-! The configuration descriptor `doParams` and the execution engine.
The current revision of the engine (src/request.go:116-154) threads every
produced error through the descriptor's error-wrapping policy
(`params.errorWrapper`, configured by `WithErrorPrefix`/`WithErrorWrapper`,
whose defining file is not part of the sources). Modelled from the spec:
errors are "propagated verbatim from the transport collaborator, optionally
wrapped" (§7), the rate-limit retry is "invisible to the caller unless the
cooldown callback itself fails" (§7) and success terminates "with the
extractor's result or nil" (§4.4), so the policy maps non-nil errors to
non-nil errors and leaves nil untouched (`Option.map` lift) and defaults to
the identity wrapping. The context field is threaded unchanged into the
suspension points and is elided. -/

/-- a transport client (`http.Client.Do`) over the instrumentation state. -/
def Client (σ : Type) := σ → Request → σ × Except Err Response

/-- Modelled from the spec: the opaque `net/http.DefaultClient` collaborator
installed by the appended `optparams.Default` fragment; no claim exercises
it, so its outcome is an opaque transport error. -/
def defaultClient {σ : Type} : Client σ :=
  fun s _ => (s, .error (.tagged "net/http DefaultClient".toList))

/-- the `doParams` descriptor (src/unnamed/part_004:15-23, plus the
`errorWrapper` field of the current engine revision; the context field is
elided, see above). -/
structure DoParams (σ : Type) where
  client : Option (Client σ)
  urlB : UrlBuilder
  headers : Headers
  body : Option Body
  handler : Handler σ
  errorWrapper : Err → Err

/-- the descriptor before any option is applied: empty header map, no body,
no client (the default is injected by `newDoParams`), zero URL builder,
empty handler chain and the default (identity) error-wrapping policy. -/
def initialDoParams {σ : Type} : DoParams σ :=
  ⟨none, emptyUrlBuilder, emptyHeaders, none, emptyHandler, id⟩

/-! Multipart form builder (src/multipartform.go). The underlying
`multipart.Writer` writes into the builder's `bytes.Buffer`; writes into a
`bytes.Buffer` cannot fail, so the `CreateFormField`/`CreateFormFile`/
`CreatePart` calls and `mw.Close()` always succeed and the only failure
source is reading a caller-supplied content stream (`io.Copy`), modelled as
the stream's `Except` outcome. A failing copy leaves the already-written
section header in the buffer, but the buffer is only ever exposed when no
error was recorded, so the partial section is unobservable and successful
sections alone are tracked. -/

/-- one multipart section as the builder writes it. -/
inductive FormSection where
  /-- a plain field written by `AddString` via `CreateFormField`. -/
  | fieldSection (name content : Str) : FormSection
  /-- a file section written by `AddFile`/`AddAsFile` via `CreateFormFile`. -/
  | fileSection (name fileName content : Str) : FormSection
  /-- a file section with explicit content type written by
  `AddAsFileWithType` via `CreatePart` with a custom MIME header. -/
  | fileWithType (name fileName contentType content : Str) : FormSection
  deriving DecidableEq, Repr

/-- the `MultipartFormBuilder` struct: recorded errors, the successfully
written sections (the observable content of `buf`), and the writer's
boundary. -/
structure MultipartFormBuilder where
  errs : List Err
  sections : List FormSection
  boundary : Str
  deriving DecidableEq, Repr

/-- Go `WithMultipartForm` (src/unnamed/part_001:192-196): a fresh builder
whose writer has the given (randomly generated) boundary. -/
def withMultipartForm (boundary : Str) : MultipartFormBuilder :=
  ⟨[], [], boundary⟩

/-- Go `(*MultipartFormBuilder).joinErrors` (src/multipartform.go:25-28):
record errors and return the builder for chaining. -/
def mpJoinErrors (b : MultipartFormBuilder) (es : List Err) :
    MultipartFormBuilder :=
  { b with errs := b.errs ++ es }

/-- Go `(*MultipartFormBuilder).AddString` (src/multipartform.go:40-47):
`CreateFormField` and the copy from a `strings.Reader` cannot fail, so a
field section is always appended. -/
def addString (b : MultipartFormBuilder) (name content : Str) :
    MultipartFormBuilder :=
  { b with sections := b.sections ++ [.fieldSection name content] }

/-- Go `(*MultipartFormBuilder).AddAsFile` (src/multipartform.go:58-73):
a closing content stream is closed after the copy (not tracked — the model
has no shared stream state); a failing copy records the error, a successful
one appends a file section. `AddFile` is this with `file.Name()` as the
file name. -/
def addAsFile (b : MultipartFormBuilder) (name fileName : Str)
    (content : Except Err Str) : MultipartFormBuilder :=
  match content with
  | .error e => mpJoinErrors b [e]
  | .ok c => { b with sections := b.sections ++ [.fileSection name fileName c] }

/-- Go `escapeQuotes` (src/multipartform.go:75-79): backslashes and double
quotes are backslash-escaped (character codes 92 and 34). -/
def escapeQuotes : Str → Str
  | [] => []
  | c :: cs =>
    if c.toNat = 92 ∨ c.toNat = 34 then Char.ofNat 92 :: c :: escapeQuotes cs
    else c :: escapeQuotes cs

/-- Go `(*MultipartFormBuilder).AddAsFileWithType`
(src/multipartform.go:84-105): like `addAsFile` but the section header is
custom-built with the explicit content type (the quote-escaping of
field/file names happens when the header is rendered, see
`renderSection`). -/
def addAsFileWithType (b : MultipartFormBuilder)
    (name fileName contentType : Str) (content : Except Err Str) :
    MultipartFormBuilder :=
  match content with
  | .error e => mpJoinErrors b [e]
  | .ok c =>
    { b with sections := b.sections ++ [.fileWithType name fileName contentType c] }

/-- one builder call in a composition sequence. -/
inductive MPOp where
  | addStringOp (name content : Str) : MPOp
  | addAsFileOp (name fileName : Str) (content : Except Err Str) : MPOp
  | addAsFileWithTypeOp (name fileName contentType : Str)
      (content : Except Err Str) : MPOp
  deriving Repr

/-- runs a sequence of builder calls in order (each call returns the builder
for chaining, so later calls are attempted regardless of earlier errors). -/
def runMP (b : MultipartFormBuilder) : List MPOp → MultipartFormBuilder
  | [] => b
  | .addStringOp n c :: rest => runMP (addString b n c) rest
  | .addAsFileOp n f c :: rest => runMP (addAsFile b n f c) rest
  | .addAsFileWithTypeOp n f t c :: rest =>
    runMP (addAsFileWithType b n f t c) rest

/-- the errors a sequence of builder calls records, in order. -/
def mpErrsOf : List MPOp → List Err
  | [] => []
  | .addStringOp _ _ :: rest => mpErrsOf rest
  | .addAsFileOp _ _ (.error e) :: rest => e :: mpErrsOf rest
  | .addAsFileOp _ _ (.ok _) :: rest => mpErrsOf rest
  | .addAsFileWithTypeOp _ _ _ (.error e) :: rest => e :: mpErrsOf rest
  | .addAsFileWithTypeOp _ _ _ (.ok _) :: rest => mpErrsOf rest

/-- the sections a sequence of builder calls writes, in insertion order. -/
def mpSectionsOf : List MPOp → List FormSection
  | [] => []
  | .addStringOp n c :: rest => .fieldSection n c :: mpSectionsOf rest
  | .addAsFileOp _ _ (.error _) :: rest => mpSectionsOf rest
  | .addAsFileOp n f (.ok c) :: rest => .fileSection n f c :: mpSectionsOf rest
  | .addAsFileWithTypeOp _ _ _ (.error _) :: rest => mpSectionsOf rest
  | .addAsFileWithTypeOp n f t (.ok c) :: rest =>
    .fileWithType n f t c :: mpSectionsOf rest

/-- CRLF. -/
def crlf : Str := [Char.ofNat 13, Char.ofNat 10]

/-- a double quote as a one-character string. -/
def dquote : Str := [Char.ofNat 34]

/-- renders one section as the `multipart.Writer` encodes it: dash-dash
boundary, the MIME part header (`Content-Disposition`, with quote-escaped
field and file names, and `Content-Type` where present), a blank line and
the content. -/
def renderSection (boundary : Str) : FormSection → Str
  | .fieldSection name content =>
    "--".toList ++ boundary ++ crlf ++
    "Content-Disposition: form-data; name=".toList ++
    dquote ++ escapeQuotes name ++ dquote ++ crlf ++ crlf ++ content
  | .fileSection name fileName content =>
    "--".toList ++ boundary ++ crlf ++
    "Content-Disposition: form-data; name=".toList ++
    dquote ++ escapeQuotes name ++ dquote ++ "; filename=".toList ++
    dquote ++ escapeQuotes fileName ++ dquote ++ crlf ++
    "Content-Type: application/octet-stream".toList ++ crlf ++ crlf ++ content
  | .fileWithType name fileName contentType content =>
    "--".toList ++ boundary ++ crlf ++
    "Content-Disposition: form-data; name=".toList ++
    dquote ++ escapeQuotes name ++ dquote ++ "; filename=".toList ++
    dquote ++ escapeQuotes fileName ++ dquote ++ crlf ++
    "Content-Type: ".toList ++ contentType ++ crlf ++ crlf ++ content

/-- the encoded multipart body after `mw.Close()`: the rendered sections
followed by the terminating boundary line. -/
def encodeMultipart (boundary : Str) (sections : List FormSection) : Str :=
  (sections.map (fun s => renderSection boundary s ++ crlf)).flatten ++
  "--".toList ++ boundary ++ "--".toList ++ crlf

/-- Go `(*multipart.Writer).FormDataContentType`: the boundary is quoted
when it contains one of the special characters `()<>@,;:\"/[]?= ` or a
space. -/
def formDataContentType (boundary : Str) : Str :=
  let special := fun c : Char =>
    let n := c.toNat
    n = 40 ∨ n = 41 ∨ n = 60 ∨ n = 62 ∨ n = 64 ∨ n = 44 ∨ n = 59 ∨
    n = 58 ∨ n = 92 ∨ n = 34 ∨ n = 47 ∨ n = 91 ∨ n = 93 ∨ n = 63 ∨
    n = 61 ∨ n = 32
  let b := if boundary.any (fun c => decide (special c)) then
    dquote ++ boundary ++ dquote else boundary
  "multipart/form-data; boundary=".toList ++ b

/-- Go `(*MultipartFormBuilder).Body` (src/multipartform.go:108-123): when
any error was recorded, return the `errors.Join` of all of them (the
descriptor is untouched: no body, no content type); otherwise close the
writer and set the descriptor's body to the encoded buffer (a `bytes.Reader`,
not a closer) and its `Content-Type` header to the boundary content type. -/
def multipartBody {σ : Type} (b : MultipartFormBuilder) (p : DoParams σ) :
    Except Err (DoParams σ) :=
  match joinAll b.errs with
  | some e => .error e
  | none =>
    .ok { p with
      body := some ⟨false, encodeMultipart b.boundary b.sections⟩,
      headers := fun k =>
        if k = headerContentType then [formDataContentType b.boundary]
        else p.headers k }

/-! Configuration fragments (src/unnamed/part_001). Each fragment is a
command applied in order against the shared descriptor; the fragments whose
Go closures capture collaborator outcomes (query/JSON/XML encoding) carry
that outcome as data. -/

/-- the content-type constant `ContentTextPlain` ("text/plain", per the
`WithTextPlain` doc comment; const.go itself is not part of the sources). -/
def contentTextPlain : Str := "text/plain".toList

/-- the content-type constant `ContentJSON` ("application/json", per the
`WithJSON` doc comment). -/
def contentJSON : Str := "application/json".toList

/-- the content-type constant `ContentXML` ("application/xml", per the
`WithXML` doc comment). -/
def contentXML : Str := "application/xml".toList

/-- a configuration fragment (`Option = optparams.Func[doParams]`). The
`WithContext` fragment only stores the elided context and is not modelled;
`WithBasicAuth` is `WithAuth` applied to a base64-derived literal and is
subsumed by `withAuth`. -/
inductive Opt (σ : Type) where
  /-- `WithClient`. -/
  | withClient (c : Client σ) : Opt σ
  /-- `WithURLPaths`. -/
  | withURLPaths (ps : List Str) : Opt σ
  /-- `WithQuery`, carrying the structured-query encoder collaborator's
  outcome (`none` = nil data). -/
  | withQuery (encoded : Option (Except Err Str)) : Opt σ
  /-- `WithHeader` (key not yet canonicalized). -/
  | withHeader (key value : Str) (appendMode : Bool) : Opt σ
  /-- `WithContentType` (key already canonical). -/
  | withContentType (value : Str) (appendMode : Bool) : Opt σ
  /-- `WithAccept` (key already canonical). -/
  | withAccept (value : Str) (appendMode : Bool) : Opt σ
  /-- `WithAuth` (key already canonical). -/
  | withAuth (value : Str) (appendMode : Bool) : Opt σ
  /-- `WithBody`: an arbitrary `io.Reader`, possibly also an `io.Closer`. -/
  | withBody (isCloser : Bool) (content : Str) : Opt σ
  /-- `WithBytes`: a `bytes.Reader`, never a closer. -/
  | withBytes (data : Str) : Opt σ
  /-- `WithTextPlain`: a `strings.Reader` plus the text/plain content type. -/
  | withTextPlain (data : Str) : Opt σ
  /-- `WithJSON`, carrying the JSON encoder collaborator's outcome. -/
  | withJSON (encoded : Except Err Str) : Opt σ
  /-- `WithXML`, carrying the XML encoder collaborator's outcome. -/
  | withXML (encoded : Except Err Str) : Opt σ
  /-- the fragment returned by `(*MultipartFormBuilder).Body`. -/
  | withMultipartBody (b : MultipartFormBuilder) : Opt σ
  /-- `WithHandlerBeforeResponse`. -/
  | withHandlerBefore (h : σ → Request → σ × Option Err) : Opt σ
  /-- `WithHandlerAfterResponse`. -/
  | withHandlerAfter (h : σ → Response → σ × Option Err) : Opt σ
  /-- `WithOK(statuses...).To(result, decoder)`. -/
  | withOKTo (statuses : List Nat) (dec : Decoder) : Opt σ
  /-- `WithError(status...).To(decoder)` decoding into the caller error
  value `errVal`. -/
  | withErrorTo (statuses : List Nat) (dec : Decoder) (errVal : Err) : Opt σ
  /-- `WithRateLimit(status...).Cooldown(handler)`; `none` models a nil
  handler. -/
  | withRateLimitCooldown (statuses : List Nat)
      (h : Option (σ → Response → σ × Option Err)) : Opt σ

/-- the fragments that set the request body directly (`WithBody`,
`WithBytes`, `WithTextPlain`, `WithJSON`, `WithXML`). -/
def isBodyOpt {σ : Type} : Opt σ → Bool
  | .withBody _ _ => true
  | .withBytes _ => true
  | .withTextPlain _ => true
  | .withJSON _ => true
  | .withXML _ => true
  | _ => false

/-- applies one configuration fragment to the descriptor, following the Go
closures (src/unnamed/part_001; `Cooldown` from src/unnamed/part_004:71-90;
the multipart fragment from src/multipartform.go:108-123). -/
def applyOpt {σ : Type} (p : DoParams σ) : Opt σ → Except Err (DoParams σ)
  | .withClient c => .ok { p with client := some c }
  | .withURLPaths ps => .ok { p with urlB := appendPaths p.urlB ps }
  | .withQuery enc =>
    match appendQuery p.urlB enc with
    | .error e => .error e
    | .ok u => .ok { p with urlB := u }
  | .withHeader key value mode =>
    .ok { p with headers := storeHeader p.headers key value ⟨false, mode⟩ }
  | .withContentType value mode =>
    .ok { p with
      headers := storeHeader p.headers headerContentType value ⟨true, mode⟩ }
  | .withAccept value mode =>
    .ok { p with
      headers := storeHeader p.headers headerAccept value ⟨true, mode⟩ }
  | .withAuth value mode =>
    .ok { p with
      headers := storeHeader p.headers headerAuthorization value ⟨true, mode⟩ }
  | .withBody isCloser content =>
    if p.body.isSome then .error .bodyAlreadyExists
    else .ok { p with body := some ⟨isCloser, content⟩ }
  | .withBytes data =>
    if p.body.isSome then .error .bodyAlreadyExists
    else .ok { p with body := some ⟨false, data⟩ }
  | .withTextPlain data =>
    -- optparams.Join: the body-setting closure runs first, then
    -- WithContentType(ContentTextPlain)
    if p.body.isSome then .error .bodyAlreadyExists
    else .ok { p with
      body := some ⟨false, data⟩,
      headers := storeHeader p.headers headerContentType contentTextPlain
        ⟨true, false⟩ }
  | .withJSON enc =>
    if p.body.isSome then .error .bodyAlreadyExists
    else
      match enc with
      | .error e => .error e
      | .ok s => .ok { p with
          body := some ⟨false, s⟩,
          headers := storeHeader p.headers headerContentType contentJSON
            ⟨true, false⟩ }
  | .withXML enc =>
    if p.body.isSome then .error .bodyAlreadyExists
    else
      match enc with
      | .error e => .error e
      | .ok s => .ok { p with
          body := some ⟨false, s⟩,
          headers := storeHeader p.headers headerContentType contentXML
            ⟨true, false⟩ }
  | .withMultipartBody b => multipartBody b p
  | .withHandlerBefore h =>
    .ok { p with handler :=
      { p.handler with beforeResponse := p.handler.beforeResponse ++ [h] } }
  | .withHandlerAfter h =>
    .ok { p with handler :=
      { p.handler with afterResponse := p.handler.afterResponse ++ [h] } }
  | .withOKTo statuses dec =>
    .ok { p with handler :=
      { p.handler with okResponse := some (okToF statuses dec) } }
  | .withErrorTo statuses dec errVal =>
    .ok { p with handler :=
      { p.handler with errorResponses :=
          p.handler.errorResponses ++ [errToF statuses dec errVal] } }
  | .withRateLimitCooldown statuses h =>
    match h with
    | none => .error .rateLimitHandlerNil
    | some handler =>
      .ok { p with handler :=
        { p.handler with
          rateLimitResponse := some handler,
          errorResponses :=
            p.handler.errorResponses ++ [rateLimitClassifier statuses] } }

/-- Go `optparams.Apply`: apply the fragments in order, aborting at the
first failing fragment (fail-fast). -/
def applyOpts {σ : Type} (p : DoParams σ) : List (Opt σ) → Except Err (DoParams σ)
  | [] => .ok p
  | o :: rest =>
    match applyOpt p o with
    | .error e => .error e
    | .ok p' => applyOpts p' rest

/-- Go `newDoParams` (src/unnamed/part_004:25-47): apply the caller's
fragments plus the appended set-if-absent defaults (context elided; default
transport client), then run the cross-field validation: a configured
rate-limit cooldown together with a body that implements `io.Closer` is
rejected. -/
def newDoParams {σ : Type} (opts : List (Opt σ)) : Except Err (DoParams σ) :=
  match applyOpts initialDoParams opts with
  | .error e => .error e
  | .ok p =>
    let p := if p.client.isNone then { p with client := some defaultClient }
             else p
    match p.handler.rateLimitResponse, p.body with
    | some _, some b =>
      if b.isCloser then .error .rateLimitBodyCloser else .ok p
    | _, _ => .ok p

/-! The execution engine (src/request.go). -/

/-- Go `prepareRequest` (src/request.go:101-114): builds the native request
from method, URL, body and the pre-canonicalized headers, which are copied
raw into the (initially empty) outgoing header set. The
`http.NewRequestWithContext` failure mode (malformed method or URL) happens
before any response exists and outside every claim; request construction is
modelled as total. -/
def prepareRequest {σ : Type} (m u : Str) (p : DoParams σ) : Request :=
  ⟨m, u, p.headers, p.body⟩

/-- the observable outcome of one attempt of the engine: the instrumentation
state, the `(tryAgain, retErr)` pair returned by `do`, and how many times
the engine called `Close()` on the response body obtained in this attempt
(0 when no response was obtained). -/
structure AttemptResult (σ : Type) where
  state : σ
  tryAgain : Bool
  err : Option Err
  closes : Nat

/-- Go `do` (src/request.go:116-154), one attempt: prepare the request, run
pre-send hooks, dispatch through the transport, register the deferred
body close (`defer ... errors.Join(retErr, errorWrapper(resp.Body.Close()))`,
performed on every exit path past this point — `closeJoin` below), run
post-receive hooks, evaluate the success classifier, then the error
classifiers; a matched `errRateLimit` with a registered cooldown callback
retries when the callback succeeds and propagates the callback's error when
it fails; no match at all yields the unhandled-response error. -/
def doAttempt {σ : Type} (p : DoParams σ) (m u : Str) (s : σ) : AttemptResult σ :=
  let req := prepareRequest m u p
  match applyBefore p.handler.beforeResponse s req with
  | (s₁, some e) => ⟨s₁, false, some (p.errorWrapper e), 0⟩
  | (s₁, none) =>
    match (p.client.getD defaultClient) s₁ req with
    | (s₂, .error e) => ⟨s₂, false, some (p.errorWrapper e), 0⟩
    | (s₂, .ok resp) =>
      let closeJoin : Option Err → Option Err := fun r =>
        joinErr r (Option.map p.errorWrapper resp.closeResult)
      match applyAfter p.handler.afterResponse s₂ resp with
      | (s₃, some e) => ⟨s₃, false, closeJoin (some (p.errorWrapper e)), 1⟩
      | (s₃, none) =>
        match matchOK p.handler s₃ resp with
        | (s₄, true, e) =>
          ⟨s₄, false, closeJoin (Option.map p.errorWrapper e), 1⟩
        | (s₄, false, _) =>
          match matchError p.handler.errorResponses s₄ resp with
          | (s₅, some e) =>
            match p.handler.rateLimitResponse, errIsRateLimit e with
            | some rl, true =>
              match rl s₅ resp with
              | (s₆, some e₂) =>
                ⟨s₆, false, closeJoin (some (p.errorWrapper e₂)), 1⟩
              | (s₆, none) => ⟨s₆, true, closeJoin none, 1⟩
            | _, _ => ⟨s₅, false, closeJoin (some (p.errorWrapper e)), 1⟩
          | (s₅, none) =>
            ⟨s₅, false,
              closeJoin (some (p.errorWrapper (newUnhandledResponse resp))), 1⟩

/-- the retry loop of Go `Do` (src/request.go:58-68): run attempts until one
returns an error (propagated) or reports no retry (success, nil). The loop
is unbounded in the source; `fuel` caps it for the embedding and `none`
reports fuel exhaustion (a still-running loop). -/
def doLoop {σ : Type} (fuel : Nat) (p : DoParams σ) (m u : Str) (s : σ) :
    σ × Option (Option Err) :=
  match fuel with
  | 0 => (s, none)
  | fuel + 1 =>
    let r := doAttempt p m u s
    match r.err with
    | some e => (r.state, some (some e))
    | none =>
      if r.tryAgain then doLoop fuel p m u r.state
      else (r.state, some none)

/-- Go `Do` (src/request.go:50-69): build the descriptor from the fragments
(aborting, with no network activity, when that fails), materialize the URL
once, and run the retry loop. -/
def runDo {σ : Type} (fuel : Nat) (m url : Str) (opts : List (Opt σ)) (s : σ) :
    σ × Option (Option Err) :=
  match newDoParams opts with
  | .error e => (s, some (some e))
  | .ok p => doLoop fuel p m (build p.urlB url) s

/-- a transport whose n-th call (counting from 0) returns the n-th scripted
outcome, with the instrumentation state counting the calls — the test
double for the retry claims. -/
def scriptClient (script : Nat → Except Err Response) : Client Nat :=
  fun n _ => (n + 1, script n)

/-- the suffix of a string after its first '?' (empty when no '?' occurs):
the query part of a built URL. -/
def afterQuestion : Str → Str
  | [] => []
  | c :: cs => if c = '?' then cs else afterQuestion cs

/-- the '&'-join of query fragments exactly as `build` writes it: the first
fragment, then each further fragment preceded by '&'. -/
def queryJoin : List Str → Str
  | [] => []
  | q :: qs => q ++ writeQueries qs

/-! Helper lemmas. -/

theorem appendPaths_paths (ps : List Str) (u : UrlBuilder) :
    (appendPaths u ps).paths = u.paths ++ ps.map trimSlashes := by
  induction ps generalizing u with
  | nil => simp [appendPaths]
  | cons p rest ih => simp [appendPaths, ih]

theorem appendPaths_queries (ps : List Str) (u : UrlBuilder) :
    (appendPaths u ps).queries = u.queries := by
  induction ps generalizing u with
  | nil => simp [appendPaths]
  | cons p rest ih => simp [appendPaths, ih]

theorem runUrlOps_paths (ops : List UrlOp) (u : UrlBuilder) :
    (runUrlOps u ops).paths = u.paths ++ storedPaths ops := by
  induction ops generalizing u with
  | nil => simp [runUrlOps, storedPaths]
  | cons o rest ih =>
    cases o with
    | pathsOp ps =>
      simp [runUrlOps, storedPaths, ih, appendPaths_paths]
    | queryOp enc =>
      match enc with
      | none => simp [runUrlOps, appendQuery, storedPaths, ih]
      | some (.error e) => simp [runUrlOps, appendQuery, storedPaths, ih]
      | some (.ok q) => simp [runUrlOps, appendQuery, storedPaths, ih]

theorem runUrlOps_queries (ops : List UrlOp) (u : UrlBuilder) :
    (runUrlOps u ops).queries = u.queries ++ storedQueries ops := by
  induction ops generalizing u with
  | nil => simp [runUrlOps, storedQueries]
  | cons o rest ih =>
    cases o with
    | pathsOp ps =>
      simp [runUrlOps, storedQueries, ih, appendPaths_queries]
    | queryOp enc =>
      match enc with
      | none => simp [runUrlOps, appendQuery, storedQueries, ih]
      | some (.error e) => simp [runUrlOps, appendQuery, storedQueries, ih]
      | some (.ok q) => simp [runUrlOps, appendQuery, storedQueries, ih]

theorem writePaths_eq_flatten (ps : List Str) :
    writePaths ps = (ps.map (fun p => '/' :: p)).flatten := by
  induction ps with
  | nil => simp [writePaths]
  | cons p rest ih => simp [writePaths, ih]

theorem writeQueries_eq_foldl (qs : List Str) (q : Str) :
    q ++ writeQueries qs = qs.foldl (fun acc f => acc ++ '&' :: f) q := by
  induction qs generalizing q with
  | nil => simp [writeQueries]
  | cons x rest ih =>
    simp only [writeQueries, List.foldl_cons]
    rw [← ih (q ++ '&' :: x)]
    simp

theorem headerClone_eq (h : List (Str × List Str)) : headerClone h = h := by
  induction h with
  | nil => rfl
  | cons kv rest ih => cases kv; simp [headerClone, ih]

theorem matchError_no_match {σ : Type} (specs : List (List Nat × Decoder × Err))
    (s : σ) (resp : Response)
    (h : ∀ t ∈ specs, t.1.contains resp.statusCode = false) :
    matchError (specs.map (fun t => errToF t.1 t.2.1 t.2.2)) s resp =
      (s, none) := by
  induction specs generalizing s with
  | nil => rfl
  | cons t rest ih =>
    have ht : t.1.contains resp.statusCode = false := h t (by simp)
    have hmem : resp.statusCode ∉ t.1 := by simpa using ht
    have hrest := ih s (fun x hx => h x (List.mem_cons_of_mem t hx))
    simp [matchError, errToF, hmem, hrest]

theorem applyOpts_append {σ : Type} (xs ys : List (Opt σ)) (p : DoParams σ) :
    applyOpts p (xs ++ ys) =
      match applyOpts p xs with
      | .error e => .error e
      | .ok p' => applyOpts p' ys := by
  induction xs generalizing p with
  | nil => simp [applyOpts]
  | cons o rest ih =>
    simp only [List.cons_append, applyOpts]
    cases applyOpt p o with
    | error e => rfl
    | ok p' => exact ih p'

theorem applyOpt_body_conflict {σ : Type} (p : DoParams σ) (o : Opt σ)
    (ho : isBodyOpt o = true) (hb : p.body.isSome = true) :
    applyOpt p o = .error Err.bodyAlreadyExists := by
  cases o <;> simp_all [applyOpt, isBodyOpt]

theorem runMP_errs (ops : List MPOp) (b : MultipartFormBuilder) :
    (runMP b ops).errs = b.errs ++ mpErrsOf ops := by
  induction ops generalizing b with
  | nil => simp [runMP, mpErrsOf]
  | cons o rest ih =>
    cases o with
    | addStringOp n c => simp [runMP, addString, mpErrsOf, ih]
    | addAsFileOp n f c =>
      cases c with
      | error e => simp [runMP, addAsFile, mpJoinErrors, mpErrsOf, ih]
      | ok cc => simp [runMP, addAsFile, mpErrsOf, ih]
    | addAsFileWithTypeOp n f t c =>
      cases c with
      | error e =>
        simp [runMP, addAsFileWithType, mpJoinErrors, mpErrsOf, ih]
      | ok cc => simp [runMP, addAsFileWithType, mpErrsOf, ih]

theorem runMP_sections (ops : List MPOp) (b : MultipartFormBuilder) :
    (runMP b ops).sections = b.sections ++ mpSectionsOf ops := by
  induction ops generalizing b with
  | nil => simp [runMP, mpSectionsOf]
  | cons o rest ih =>
    cases o with
    | addStringOp n c => simp [runMP, addString, mpSectionsOf, ih]
    | addAsFileOp n f c =>
      cases c with
      | error e => simp [runMP, addAsFile, mpJoinErrors, mpSectionsOf, ih]
      | ok cc => simp [runMP, addAsFile, mpSectionsOf, ih]
    | addAsFileWithTypeOp n f t c =>
      cases c with
      | error e =>
        simp [runMP, addAsFileWithType, mpJoinErrors, mpSectionsOf, ih]
      | ok cc => simp [runMP, addAsFileWithType, mpSectionsOf, ih]

theorem runMP_boundary (ops : List MPOp) (b : MultipartFormBuilder) :
    (runMP b ops).boundary = b.boundary := by
  induction ops generalizing b with
  | nil => simp [runMP]
  | cons o rest ih =>
    cases o with
    | addStringOp n c => simp [runMP, addString, ih]
    | addAsFileOp n f c =>
      cases c with
      | error e => simp [runMP, addAsFile, mpJoinErrors, ih]
      | ok cc => simp [runMP, addAsFile, ih]
    | addAsFileWithTypeOp n f t c =>
      cases c with
      | error e => simp [runMP, addAsFileWithType, mpJoinErrors, ih]
      | ok cc => simp [runMP, addAsFileWithType, ih]

theorem count_dropLeadingSlashes_le (c : Char) (s : Str) :
    (dropLeadingSlashes s).count c ≤ s.count c := by
  induction s with
  | nil => simp [dropLeadingSlashes]
  | cons x xs ih =>
    by_cases hx : x = '/'
    · subst hx
      simp only [dropLeadingSlashes, if_pos rfl]
      refine le_trans ih ?_
      simp [List.count_cons]
    · simp [dropLeadingSlashes, hx]

theorem count_trimRightSlashes_le (c : Char) (s : Str) :
    (trimRightSlashes s).count c ≤ s.count c := by
  unfold trimRightSlashes
  rw [List.count_reverse]
  refine le_trans (count_dropLeadingSlashes_le c s.reverse) ?_
  rw [List.count_reverse]

theorem count_writePaths_zero (c : Char) (hc : c ≠ '/')
    (ps : List Str) (h : ∀ p ∈ ps, p.count c = 0) :
    (writePaths ps).count c = 0 := by
  induction ps with
  | nil => simp [writePaths]
  | cons p rest ih =>
    have hp : p.count c = 0 := h p (by simp)
    have hr : (writePaths rest).count c = 0 :=
      ih (fun x hx => h x (List.mem_cons_of_mem p hx))
    simp [writePaths, List.count_cons, List.count_append, hp, hr, hc]

theorem afterQuestion_append_no_question (x y : Str)
    (hx : x.count '?' = 0) : afterQuestion (x ++ y) = afterQuestion y := by
  induction x with
  | nil => simp
  | cons c cs ih =>
    have hc : ¬(c = '?') := by
      intro hcc
      subst hcc
      simp [List.count_cons] at hx
    have hcs : cs.count '?' = 0 := by
      simp [List.count_cons, hc] at hx
      simpa using hx
    simp [afterQuestion, hc, ih hcs]

theorem count_writeQueries_amp (qs : List Str)
    (h : ∀ q ∈ qs, q.count '&' = 0) :
    (writeQueries qs).count '&' = qs.length := by
  induction qs with
  | nil => simp [writeQueries]
  | cons q rest ih =>
    have hq : q.count '&' = 0 := h q (by simp)
    have hr := ih (fun x hx => h x (List.mem_cons_of_mem q hx))
    simp [writeQueries, List.count_cons, List.count_append, hq, hr]

/-! Claim theorems. -/

/-- C2: for every base string, every sequence of appended path segments and
every sequence of appended query fragments, `build` returns the base with
its trailing '/' separators stripped, followed by each stored (trimmed)
segment preceded by exactly one '/', in append order, and then — only if at
least one query fragment exists — a single '?' followed by the first query
fragment and the remaining fragments each preceded by '&', in append order
(`urlSpec` is that description, written from the spec's words). -/
theorem build_refines_spec (base : Str) (ops : List UrlOp) :
    build (runUrlOps emptyUrlBuilder ops) base =
      urlSpec base (storedPaths ops) (storedQueries ops) := by
  unfold build urlSpec
  rw [runUrlOps_paths, runUrlOps_queries]
  simp only [emptyUrlBuilder, List.nil_append]
  rw [writePaths_eq_flatten]
  cases storedQueries ops with
  | nil => rfl
  | cons q qs =>
    simp only []
    rw [← writeQueries_eq_foldl]
    simp

/-- C1: for every attempt made by the engine that obtains a response from
the transport — under arbitrary hooks, classifiers, cooldown callback and
error-wrapping policy, hence on every exit path of the handling phase
(success-classifier match, post-receive hook failure, terminal classified
error, unhandled response, and the rate-limit retry path, including a
failing cooldown callback) — the response body is closed exactly once
before the attempt exits. -/
theorem attempt_closes_body_exactly_once {σ : Type} (p : DoParams σ)
    (m u : Str) (s s₁ s₂ : σ) (resp : Response)
    (hb : applyBefore p.handler.beforeResponse s (prepareRequest m u p) =
      (s₁, none))
    (hc : (p.client.getD defaultClient) s₁ (prepareRequest m u p) =
      (s₂, .ok resp)) :
    (doAttempt p m u s).closes = 1 := by
  unfold doAttempt
  simp only [hb, hc]
  rcases h₃ : applyAfter p.handler.afterResponse s₂ resp with ⟨s₃, e₃⟩
  cases e₃ with
  | some e => simp
  | none =>
    simp only []
    rcases h₄ : matchOK p.handler s₃ resp with ⟨s₄, mtch, e₄⟩
    cases mtch with
    | true => simp
    | false =>
      simp only []
      rcases h₅ : matchError p.handler.errorResponses s₄ resp with ⟨s₅, e₅⟩
      cases e₅ with
      | none => simp
      | some e =>
        simp only []
        rcases hrl : p.handler.rateLimitResponse with _ | rl
        · simp
        · cases hIs : errIsRateLimit e with
          | false => simp
          | true =>
            simp only []
            rcases h₆ : rl s₅ resp with ⟨s₆, e₆⟩
            cases e₆ <;> simp

/-- C1 witness: a concrete attempt (trivial hooks, a transport returning a
200 response) closes the body exactly once. -/
theorem attempt_closes_body_exactly_once_witness :
    (doAttempt
      { initialDoParams with
        client := some (fun (s : Unit) _ =>
          (s, .ok ⟨200, [], .ok "ok".toList, none⟩)) }
      "GET".toList "http://e".toList ()).closes = 1 :=
  attempt_closes_body_exactly_once _ _ _ () () ()
    ⟨200, [], .ok "ok".toList, none⟩ rfl rfl

/-- C4: for every response whose status code is matched by the registered
success classifier (built by `OKStatuses.To`), classification terminates
with the success extractor's outcome — its decoded result, i.e. no error,
or its decoding error — wrapped by the error policy and joined with the
body-close outcome; the attempt does not retry, and the instrumentation
state of the returned attempt is exactly the post-hook state `s₃`, so the
error classifiers (arbitrary state-recording functions) are never
invoked. -/
theorem success_match_short_circuits {σ : Type} (p : DoParams σ)
    (m u : Str) (okSt : List Nat) (dec : Decoder) (s s₁ s₂ s₃ : σ)
    (resp : Response)
    (hok : p.handler.okResponse = some (okToF okSt dec))
    (hb : applyBefore p.handler.beforeResponse s (prepareRequest m u p) =
      (s₁, none))
    (hc : (p.client.getD defaultClient) s₁ (prepareRequest m u p) =
      (s₂, .ok resp))
    (ha : applyAfter p.handler.afterResponse s₂ resp = (s₃, none))
    (hst : okSt.contains resp.statusCode = true) :
    doAttempt p m u s =
      ⟨s₃, false,
        joinErr (Option.map p.errorWrapper (dec resp.bodyRead))
          (Option.map p.errorWrapper resp.closeResult), 1⟩ := by
  unfold doAttempt
  simp only [hb, hc, ha]
  have hmem : resp.statusCode ∈ okSt := by simpa using hst
  have hmatch : matchOK p.handler s₃ resp = (s₃, true, dec resp.bodyRead) := by
    cases hd : dec resp.bodyRead with
    | some e => simp [matchOK, hok, okToF, hmem, hd]
    | none => simp [matchOK, hok, okToF, hmem, hd]
  simp only [hmatch]

/-- C4 witness: a 200 response against a success classifier for {200}, an
error classifier for {404} that would record its invocation in the
instrumentation state, and a successful decode: the attempt returns the
extractor's success with the state untouched by the error classifier. -/
theorem success_match_short_circuits_witness :
    doAttempt
      { (initialDoParams : DoParams Nat) with
        client := some (fun s _ =>
          (s, .ok ⟨200, [], .ok "ok".toList, none⟩)),
        handler := { (emptyHandler : Handler Nat) with
          okResponse := some (okToF [200] (fun _ => none)),
          errorResponses :=
            [fun s _ => (s + 1, some (Err.tagged "404".toList))] } }
      "GET".toList "http://e".toList 0 = ⟨0, false, none, 1⟩ :=
  success_match_short_circuits _ _ _ [200] (fun _ => none) 0 0 0 0
    ⟨200, [], .ok "ok".toList, none⟩ rfl rfl rfl rfl rfl

/-- C7: for every response whose status code is matched neither by the
success classifier (built by `OKStatuses.To`) nor by any of the registered
error classifiers (built by `ErrorStatuses.To`), and under the default
(identity) error-wrapping policy, the attempt terminates without retrying
and returns an unhandled-response error carrying exactly the response's
status code, a clone of its headers (which equals the original headers),
and the fully buffered body payload — joined with the body-close outcome —
and the response body is closed exactly once. -/
theorem unhandled_response_snapshot {σ : Type} (p : DoParams σ)
    (m u : Str) (okSt : List Nat) (dec : Decoder)
    (specs : List (List Nat × Decoder × Err)) (s s₁ s₂ s₃ : σ)
    (resp : Response) (payload : Str)
    (hok : p.handler.okResponse = some (okToF okSt dec))
    (herr : p.handler.errorResponses =
      specs.map (fun t => errToF t.1 t.2.1 t.2.2))
    (hb : applyBefore p.handler.beforeResponse s (prepareRequest m u p) =
      (s₁, none))
    (hc : (p.client.getD defaultClient) s₁ (prepareRequest m u p) =
      (s₂, .ok resp))
    (ha : applyAfter p.handler.afterResponse s₂ resp = (s₃, none))
    (hst : okSt.contains resp.statusCode = false)
    (hmiss : ∀ t ∈ specs, t.1.contains resp.statusCode = false)
    (hread : resp.bodyRead = .ok payload)
    (hew : p.errorWrapper = id) :
    doAttempt p m u s =
      ⟨s₃, false,
        joinErr
          (some (Err.unhandled resp.statusCode (headerClone resp.headers)
            payload))
          resp.closeResult, 1⟩ ∧
    headerClone resp.headers = resp.headers := by
  refine ⟨?_, headerClone_eq resp.headers⟩
  unfold doAttempt
  simp only [hb, hc, ha]
  have hmem : resp.statusCode ∉ okSt := by simpa using hst
  have hmatch : matchOK p.handler s₃ resp = (s₃, false, none) := by
    simp [matchOK, hok, okToF, hmem]
  have hme : matchError p.handler.errorResponses s₃ resp = (s₃, none) := by
    rw [herr]
    exact matchError_no_match specs s₃ resp hmiss
  simp only [hmatch, hme, hew]
  simp [newUnhandledResponse, hread, Option.map_id]

/-- C7 witness: a 500 response (body "oops", headers present) against a
success classifier for {200} and one error classifier for {404}: the
attempt returns the unhandled-response error with status 500, the cloned
headers and the buffered body, closing the body once. -/
theorem unhandled_response_snapshot_witness :
    doAttempt
      { (initialDoParams : DoParams Nat) with
        client := some (fun s _ =>
          (s, .ok ⟨500, [("X-A".toList, ["1".toList])], .ok "oops".toList,
            none⟩)),
        handler := { (emptyHandler : Handler Nat) with
          okResponse := some (okToF [200] (fun _ => none)),
          errorResponses :=
            [([404], fun _ => none,
               Err.tagged "not found".toList)].map
              (fun t => errToF t.1 t.2.1 t.2.2) } }
      "GET".toList "http://e".toList 0 =
      ⟨0, false,
        some (Err.unhandled 500
          (headerClone [("X-A".toList, ["1".toList])]) "oops".toList), 1⟩ :=
  (unhandled_response_snapshot _ _ _ [200] (fun _ => none)
    [([404], fun _ => none, Err.tagged "not found".toList)] 0 0 0 0
    ⟨500, [("X-A".toList, ["1".toList])], .ok "oops".toList, none⟩
    "oops".toList rfl rfl rfl rfl rfl rfl
    (by
      intro t ht
      rw [List.eq_of_mem_singleton ht]
      decide)
    rfl rfl).1

/-- C3: with a success classifier, a rate-limit classifier with an
always-succeeding cooldown callback, and a transport scripted to answer the
first send with a rate-limited response and the second with a
success-classified response (both bodies closing cleanly and the success
decode succeeding), `Do` returns success (nil error) and the transport's
send is invoked exactly twice — the send counter is the instrumentation
state, so the result `(2, some none)` is two sends, one retry, success. -/
theorem rate_limit_retry_two_sends (m u : Str) (okSt rlSt : List Nat)
    (dec : Decoder) (resp1 resp2 : Response)
    (h1 : okSt.contains resp1.statusCode = false)
    (h2 : rlSt.contains resp1.statusCode = true)
    (h3 : okSt.contains resp2.statusCode = true)
    (h4 : dec resp2.bodyRead = none)
    (h5 : resp1.closeResult = none)
    (h6 : resp2.closeResult = none) :
    runDo 2 m u
      [Opt.withOKTo okSt dec,
       Opt.withRateLimitCooldown rlSt (some (fun s _ => (s, none))),
       Opt.withClient (scriptClient fun n =>
         if n = 0 then .ok resp1 else .ok resp2)]
      0 = (2, some none) := by
  have m1 : resp1.statusCode ∉ okSt := by simpa using h1
  have m2 : resp1.statusCode ∈ rlSt := by simpa using h2
  have m3 : resp2.statusCode ∈ okSt := by simpa using h3
  simp [runDo, newDoParams, applyOpts, applyOpt, initialDoParams, doLoop,
    doAttempt, prepareRequest, applyBefore, applyAfter, matchOK, matchError,
    okToF, rateLimitClassifier, errIsRateLimit, scriptClient, emptyHandler,
    joinErr, m1, m2, m3, h4, h5, h6]

/-- C3 witness: rate-limit classifier for {429} with a succeeding cooldown,
success classifier for {200}, transport scripted 429 then 200: two sends,
success. -/
theorem rate_limit_retry_two_sends_witness :
    runDo 2 "GET".toList "http://e".toList
      [Opt.withOKTo [200] (fun _ => none),
       Opt.withRateLimitCooldown [429] (some (fun s _ => (s, none))),
       Opt.withClient (scriptClient fun n =>
         if n = 0 then .ok ⟨429, [], .ok [], none⟩
         else .ok ⟨200, [], .ok "ok".toList, none⟩)]
      0 = (2, some none) :=
  rate_limit_retry_two_sends "GET".toList "http://e".toList [200] [429]
    (fun _ => none) ⟨429, [], .ok [], none⟩ ⟨200, [], .ok "ok".toList, none⟩
    rfl rfl rfl rfl rfl rfl

/-- C5: for every option sequence whose application configures both a
rate-limit cooldown callback and a body exposing a closing capability
(`io.Closer`), descriptor construction fails with the validation error and
`Do` returns it with the instrumentation state untouched — the transport
client, an arbitrary state-transforming function, was never invoked, so no
network send is attempted. -/
theorem cooldown_with_closer_body_rejected {σ : Type} (opts : List (Opt σ))
    (p : DoParams σ) (b : Body) (fuel : Nat) (m u : Str) (s : σ)
    (happ : applyOpts initialDoParams opts = .ok p)
    (hrl : p.handler.rateLimitResponse.isSome = true)
    (hbody : p.body = some b)
    (hcl : b.isCloser = true) :
    runDo fuel m u opts s = (s, some (some Err.rateLimitBodyCloser)) := by
  obtain ⟨rl, ho⟩ := Option.isSome_iff_exists.mp hrl
  have hnd : newDoParams opts = .error Err.rateLimitBodyCloser := by
    unfold newDoParams
    rw [happ]
    cases hcn : p.client.isNone <;> simp [hcn, ho, hbody, hcl]
  simp [runDo, hnd]

/-- C5 witness: a closer body (`WithBody` with an `io.Closer` reader)
followed by a rate-limit cooldown: `Do` returns the validation error with
zero transport calls. -/
theorem cooldown_with_closer_body_rejected_witness :
    runDo 3 "GET".toList "http://e".toList
      [Opt.withBody true "data".toList,
       Opt.withRateLimitCooldown [429] (some (fun (s : Unit) _ => (s, none)))]
      () = ((), some (some Err.rateLimitBodyCloser)) :=
  cooldown_with_closer_body_rejected _ _ _ 3 _ _ () rfl rfl rfl rfl

/-- C6 counterexample: the option sequence
`[WithQuery(bad), WithBytes, WithBody]` contains two body-setting fragments
(`WithBytes` and `WithBody`), yet applying it fails with the structured
query collaborator's error — the failure the repository's own test
"URL with error query" exhibits for `appendQuery(42)` — and not with the
"body already exists" error, refuting the claim as universally stated. -/
theorem two_body_fragments_counterexample :
    ([Opt.withQuery (some (.error (Err.tagged "invalid query".toList))),
      Opt.withBytes [], Opt.withBody false []] :
        List (Opt Unit)).countP (fun o => isBodyOpt o) = 2 ∧
    applyOpts initialDoParams
      ([Opt.withQuery (some (.error (Err.tagged "invalid query".toList))),
        Opt.withBytes [], Opt.withBody false []] : List (Opt Unit)) =
      .error (Err.tagged "invalid query".toList) ∧
    Err.tagged "invalid query".toList ≠ Err.bodyAlreadyExists :=
  ⟨rfl, rfl, by decide⟩

/-- C6 amended: for every option sequence containing two body-setting
fragments (any two of `WithBody`, `WithBytes`, `WithTextPlain`, `WithJSON`,
`WithXML`, in any order) in which every fragment preceding the second
body-setting fragment applies successfully, applying the options fails with
the "body already exists" error at the second body-setting fragment, and
application of the remaining fragments is aborted there. -/
theorem second_body_fragment_rejected {σ : Type} (xs ys : List (Opt σ))
    (o : Opt σ) (p : DoParams σ)
    (hxs : applyOpts initialDoParams xs = .ok p)
    (hbody : p.body.isSome = true)
    (ho : isBodyOpt o = true) :
    applyOpts initialDoParams (xs ++ o :: ys) =
      .error Err.bodyAlreadyExists := by
  rw [applyOpts_append, hxs]
  simp only [applyOpts]
  rw [applyOpt_body_conflict p o ho hbody]

/-- C6 amended witness: `WithBytes` then `WithBody` (with a further
fragment behind them) fails with the body-already-exists error. -/
theorem second_body_fragment_rejected_witness :
    applyOpts initialDoParams
      (([Opt.withBytes "a".toList] ++ Opt.withBody false "b".toList ::
        [Opt.withTextPlain "c".toList]) : List (Opt Unit)) =
      .error Err.bodyAlreadyExists :=
  second_body_fragment_rejected [Opt.withBytes "a".toList]
    [Opt.withTextPlain "c".toList] (Opt.withBody false "b".toList) _
    rfl rfl rfl

/-- C8: for every sequence of multipart builder operations, a write failure
in one section is recorded in the builder's error list without preventing
subsequent sections from being attempted — the recorded errors and the
written sections are exactly the per-operation outcomes of the whole
sequence, in order — and finalization returns the join of all recorded
errors when any occurred (producing neither body content nor a content-type
header), and otherwise closes the writer and exposes the encoded body
together with the multipart boundary content-type header. -/
theorem multipart_error_accumulation {σ : Type} (boundary : Str)
    (ops : List MPOp) (p : DoParams σ) :
    (runMP (withMultipartForm boundary) ops).errs = mpErrsOf ops ∧
    (runMP (withMultipartForm boundary) ops).sections = mpSectionsOf ops ∧
    multipartBody (runMP (withMultipartForm boundary) ops) p =
      (match joinAll (mpErrsOf ops) with
       | some e => .error e
       | none => .ok { p with
           body := some ⟨false, encodeMultipart boundary (mpSectionsOf ops)⟩,
           headers := fun k => if k = headerContentType
             then [formDataContentType boundary] else p.headers k }) := by
  have he := runMP_errs ops (withMultipartForm boundary)
  have hs := runMP_sections ops (withMultipartForm boundary)
  have hbd := runMP_boundary ops (withMultipartForm boundary)
  refine ⟨by simpa [withMultipartForm] using he,
    by simpa [withMultipartForm] using hs, ?_⟩
  unfold multipartBody
  rw [he, hs, hbd]
  simp [withMultipartForm]

/-- C9 counterexample: a single appended structured query value can encode
to a fragment containing '&' itself — exactly what the repository's own
test produces from a two-field record ("first=1&second%5B%5D=2") — so for
n = 1 the query part of the built URL contains '&' once, not n-1 = 0 times;
and with n = 0 a base string containing '?' makes the built URL contain a
'?' even though no query fragment exists. -/
theorem query_separator_counterexample :
    (storedQueries [UrlOp.queryOp (some (.ok "a=1&b=2".toList))]).length = 1 ∧
    (afterQuestion (build
      (runUrlOps emptyUrlBuilder [UrlOp.queryOp (some (.ok "a=1&b=2".toList))])
      "http://e".toList)).count '&' = 1 ∧
    (1 : Nat) ≠ 1 - 1 ∧
    storedQueries ([] : List UrlOp) = [] ∧
    (build (runUrlOps emptyUrlBuilder []) "http://e?x=1".toList).count '?' =
      1 ∧
    (1 : Nat) ≠ 0 := by
  refine ⟨rfl, ?_, by decide, rfl, ?_, by decide⟩ <;> rfl

/-- C9 amended: for every sequence of appended query fragments that are
'&'-free (single-pair encodings), and for every base and path segments free
of '?', the query part of the built URL is the '&'-join of the fragments in
append order — so it contains the '&' separator exactly n-1 times for n
fragments — and when no fragment exists the built URL contains no '?' at
all. In general the separator is written exactly n-1 times, and any further
'&' occurrences come verbatim from inside the encoded fragments. -/
theorem query_part_separator_count (base : Str) (ops : List UrlOp)
    (hq : ∀ q ∈ storedQueries ops, q.count '&' = 0)
    (hb : base.count '?' = 0)
    (hp : ∀ sg ∈ storedPaths ops, sg.count '?' = 0) :
    (storedQueries ops ≠ [] →
      afterQuestion (build (runUrlOps emptyUrlBuilder ops) base) =
        queryJoin (storedQueries ops) ∧
      (afterQuestion (build (runUrlOps emptyUrlBuilder ops) base)).count '&' =
        (storedQueries ops).length - 1) ∧
    (storedQueries ops = [] →
      (build (runUrlOps emptyUrlBuilder ops) base).count '?' = 0) := by
  have hps : (runUrlOps emptyUrlBuilder ops).paths = storedPaths ops := by
    simpa [emptyUrlBuilder] using runUrlOps_paths ops emptyUrlBuilder
  have hqs : (runUrlOps emptyUrlBuilder ops).queries = storedQueries ops := by
    simpa [emptyUrlBuilder] using runUrlOps_queries ops emptyUrlBuilder
  have hbase : (trimRightSlashes base).count '?' = 0 :=
    Nat.le_zero.mp (hb ▸ count_trimRightSlashes_le '?' base)
  have hwp : (writePaths (storedPaths ops)).count '?' = 0 :=
    count_writePaths_zero '?' (by decide) (storedPaths ops) hp
  constructor
  · intro hne
    unfold build
    rw [hps, hqs]
    cases hsq : storedQueries ops with
    | nil => exact absurd hsq hne
    | cons q qs =>
      have hqfree : ∀ x ∈ qs, x.count '&' = 0 := by
        intro x hx
        exact hq x (by rw [hsq]; exact List.mem_cons_of_mem q hx)
      have hq0 : q.count '&' = 0 := hq q (by rw [hsq]; simp)
      have hpre : (trimRightSlashes base ++
          writePaths (storedPaths ops)).count '?' = 0 := by
        rw [List.count_append, hbase, hwp]
      have haq : afterQuestion (trimRightSlashes base ++
          writePaths (storedPaths ops) ++ ('?' :: q ++ writeQueries qs)) =
          q ++ writeQueries qs := by
        rw [afterQuestion_append_no_question _ _ hpre]
        simp [afterQuestion]
      constructor
      · simpa [queryJoin] using haq
      · rw [haq]
        rw [List.count_append, hq0, count_writeQueries_amp qs hqfree]
        simp
  · intro hnil
    unfold build
    rw [hps, hqs, hnil]
    simp only [List.append_nil]
    rw [List.count_append, hbase, hwp]

/-- C9 amended witness: two '&'-free fragments after a '?'-free base and
path yield a query part with exactly one '&' in append order, and with no
fragments no '?' appears. -/
theorem query_part_separator_count_witness :
    (storedQueries [UrlOp.pathsOp ["a".toList],
        UrlOp.queryOp (some (.ok "x=1".toList)),
        UrlOp.queryOp (some (.ok "y=2".toList))] ≠ [] →
      afterQuestion (build (runUrlOps emptyUrlBuilder
          [UrlOp.pathsOp ["a".toList],
           UrlOp.queryOp (some (.ok "x=1".toList)),
           UrlOp.queryOp (some (.ok "y=2".toList))]) "http://e".toList) =
        queryJoin (storedQueries [UrlOp.pathsOp ["a".toList],
          UrlOp.queryOp (some (.ok "x=1".toList)),
          UrlOp.queryOp (some (.ok "y=2".toList))]) ∧
      (afterQuestion (build (runUrlOps emptyUrlBuilder
          [UrlOp.pathsOp ["a".toList],
           UrlOp.queryOp (some (.ok "x=1".toList)),
           UrlOp.queryOp (some (.ok "y=2".toList))]) "http://e".toList)).count
          '&' =
        (storedQueries [UrlOp.pathsOp ["a".toList],
          UrlOp.queryOp (some (.ok "x=1".toList)),
          UrlOp.queryOp (some (.ok "y=2".toList))]).length - 1) ∧
    (storedQueries [UrlOp.pathsOp ["a".toList],
        UrlOp.queryOp (some (.ok "x=1".toList)),
        UrlOp.queryOp (some (.ok "y=2".toList))] = [] →
      (build (runUrlOps emptyUrlBuilder
          [UrlOp.pathsOp ["a".toList],
           UrlOp.queryOp (some (.ok "x=1".toList)),
           UrlOp.queryOp (some (.ok "y=2".toList))]) "http://e".toList).count
          '?' = 0) :=
  query_part_separator_count "http://e".toList
    [UrlOp.pathsOp ["a".toList], UrlOp.queryOp (some (.ok "x=1".toList)),
     UrlOp.queryOp (some (.ok "y=2".toList))]
    (by decide) (by decide) (by decide)

/-- C10: for every header key and value, the `WithHeader` fragment succeeds
and stores under the MIME-canonicalized key: by default (append mode off)
it replaces all previously stored values for the canonical key with the
single new value; with `HeaderAppendModeON` it appends the value to the end
of the existing list; every other key is untouched. -/
theorem withHeader_canonical_store {σ : Type} (p : DoParams σ)
    (key value k : Str) (mode : Bool) :
    (applyOpt p (Opt.withHeader key value mode)).map (fun p' => p'.headers k) =
      .ok (if k = canonicalMIMEHeaderKey key then
             (if mode then p.headers (canonicalMIMEHeaderKey key) ++ [value]
              else [value])
           else p.headers k) := by
  simp [applyOpt, storeHeader, Except.map]

end Rqx
